import Mathlib

/-!
Verification development for the DripEdge Market Service SDK
(`market/src/MarketServiceClient.ts` and `market/src/types.ts`).

The definitions below are a shallow embedding of the client's pure decision
logic: configuration resolution (base URL and environment), error-code
classification, semantic version comparison, version-status header parsing
with transition detection, subscriber notification (JavaScript
`Array.prototype.forEach` over the live callback array), response-envelope
unwrapping, and the client-side cost-adder helpers.

Conventions of the embedding:
* optional values (`undefined` / absent fields) are `Option`;
* JavaScript truthiness on optional strings is modelled explicitly
  (an absent value and the empty string are both falsy);
* `Date` values are modelled as integer timestamps; reading the ambient
  clock (`new Date()`) is modelled by passing the clock value as an
  explicit argument;
* JavaScript numbers produced by `Number(...)` on dot-free version
  components are modelled as `Option Int`, with `none` playing the role
  of `NaN`. The model covers optionally signed decimal integer
  components below the binary64 overflow threshold and applies the
  round-to-nearest-even reduction to 53 significant bits that binary64
  performs, so value collisions above 2^53 are reproduced. Other
  JavaScript-numeric forms (exponent, hex/octal/binary, whitespace,
  infinities) are outside the model; every theorem below that depends on
  parsed component values restricts itself to the modelled domain.
-/

namespace DripEdge

/-- JavaScript truthiness of an optional string: `undefined` and `""` are
falsy, every other string is truthy. -/
def strTruthy : Option String → Bool
  | none => false
  | some s => s ≠ ""

/-- Embedding of `x || d` for an optional string `x` and a string default
`d`: the value of `x` when truthy, otherwise `d`. -/
def strOr (x : Option String) (d : String) : String :=
  match x with
  | none => d
  | some s => if s = "" then d else s

/-- The truthy value of an optional string, if any: embedding of contexts
where JavaScript keeps the string only when it is truthy
(e.g. `message || undefined`). -/
def strTruthyVal : Option String → Option String
  | none => none
  | some s => if s = "" then none else some s

-- ============================================
-- Configuration resolution (types.ts, MarketServiceClient.ts)
-- ============================================

/-- The `ServiceEnvironment` from `types.ts`. -/
inductive ServiceEnvironment where
  | development
  | staging
  | production
deriving DecidableEq, Repr

/-- The `SERVICE_URLS` table from `types.ts`. -/
def SERVICE_URLS : ServiceEnvironment → String
  | .development => "http://localhost:3002"
  | .staging => "https://market-service-staging.dripedge.io"
  | .production => "https://market-service.dripedge.io"

/-- The fields of `MarketServiceConfig` (types.ts) that the configuration
resolver reads. -/
structure MarketServiceConfig where
  environment : Option ServiceEnvironment
  baseURL : Option String
  apiKey : String
deriving DecidableEq, Repr

/-- The `resolveBaseURL` from `MarketServiceClient.ts`: a truthy custom
`baseURL` takes priority; otherwise `SERVICE_URLS[config.environment ||
'development']`. -/
def resolveBaseURL (config : MarketServiceConfig) : String :=
  match config.baseURL with
  | some url =>
      if url = "" then SERVICE_URLS (config.environment.getD .development)
      else url
  | none => SERVICE_URLS (config.environment.getD .development)

/-- Whether the first list of characters starts with the second:
embedding of `String.prototype.startsWith`. -/
def startsWithChars : List Char → List Char → Bool
  | _, [] => true
  | [], _ :: _ => false
  | c :: cs, p :: ps => c = p && startsWithChars cs ps

/-- The `detectEnvironmentFromKey` from `MarketServiceClient.ts`: an API key
with the live-key marker at its start implies production, anything else
development. -/
def detectEnvironmentFromKey (apiKey : String) : ServiceEnvironment :=
  if startsWithChars apiKey.data "mk_live_".data then .production else .development

/-- The environment the constructor stores in `this.environment`:
`config.environment || detectEnvironmentFromKey(config.apiKey)`. -/
def resolvedEnvironment (config : MarketServiceConfig) : ServiceEnvironment :=
  config.environment.getD (detectEnvironmentFromKey config.apiKey)

/-- The base-URL resolution as the specification words it: explicit URL if
present; else the default URL for the requested environment; else the
default URL for the environment inferred from the API key. Stated
for comparison with `resolveBaseURL`. -/
def specBaseURL (config : MarketServiceConfig) : String :=
  match config.baseURL with
  | some url =>
      if url = "" then
        match config.environment with
        | some env => SERVICE_URLS env
        | none => SERVICE_URLS (detectEnvironmentFromKey config.apiKey)
      else url
  | none =>
      match config.environment with
      | some env => SERVICE_URLS env
      | none => SERVICE_URLS (detectEnvironmentFromKey config.apiKey)

-- ============================================
-- Semantic version comparison (compareVersions)
-- ============================================

/-- The `String.prototype.split('.')` on the character list of a string:
splits at every `'.'`, keeping empty pieces. -/
def splitDotAux : List Char → List Char → List (List Char)
  | [], acc => [acc.reverse]
  | c :: rest, acc =>
      if c = '.' then acc.reverse :: splitDotAux rest []
      else splitDotAux rest (c :: acc)

/-- The components of a version string, as character lists:
`a.split('.')`. -/
def splitDot (s : String) : List (List Char) :=
  splitDotAux s.data []

/-- The numeric value of a list of decimal digits. -/
def digitsToNat (l : List Char) : Nat :=
  l.foldl (fun acc c => acc * 10 + (c.toNat - 48)) 0

/-- Whether a component is a nonempty string of decimal digits. -/
def isDigits (l : List Char) : Bool :=
  l ≠ [] && l.all Char.isDigit

/-- How many halvings bring `n` below `2 ^ 53`: the number of low-order
bits binary64 discards from `n`. The fuel bound covers every magnitude
below `2 ^ 2101`, far beyond the binary64 overflow threshold. -/
def float64ScaleAux : Nat → Nat → Nat
  | 0, _ => 0
  | fuel + 1, n => if n < 2 ^ 53 then 0 else float64ScaleAux fuel (n / 2) + 1

/-- The binary64 scale of `n`: `0` for exactly representable magnitudes,
otherwise the count of discarded low-order bits. -/
def float64Scale (n : Nat) : Nat :=
  float64ScaleAux 2048 n

/-- Round-to-nearest, ties-to-even, at 53 significant bits: the value a
nonnegative integer becomes when converted to an IEEE-754 binary64
number (below the overflow threshold). Integers below `2 ^ 53` are
unchanged. -/
def roundNearest53 (n : Nat) : Nat :=
  if n < 2 ^ 53 then n
  else
    let k := float64Scale n
    let q := n / 2 ^ k
    let r := n % 2 ^ k
    let half := 2 ^ (k - 1)
    if r < half then q * 2 ^ k
    else if half < r then (q + 1) * 2 ^ k
    else if q % 2 = 0 then q * 2 ^ k else (q + 1) * 2 ^ k

/-- Model of JavaScript `Number(...)` applied to a dot-free version
component: `""` is `0`, an optionally signed decimal digit string is its
value rounded to binary64 precision (`roundNearest53`), anything else is
`NaN` (modelled as `none`). JavaScript-numeric forms outside this
domain - exponent, hex/octal/binary, whitespace-padded and infinity
forms, and magnitudes at or above the binary64 overflow threshold - are
not modelled. -/
def jsNumber (l : List Char) : Option Int :=
  if l = [] then some 0
  else if isDigits l then some (roundNearest53 (digitsToNat l) : Int)
  else match l with
    | '-' :: rest =>
        if isDigits rest then some (-(roundNearest53 (digitsToNat rest) : Int)) else none
    | '+' :: rest =>
        if isDigits rest then some (roundNearest53 (digitsToNat rest) : Int) else none
    | _ => none

/-- The `partsX[i] || 0` where `partsX = x.split('.').map(Number)`: an
out-of-range index gives `undefined` and `NaN` gives `none`; `|| 0` turns
either into `0` (and leaves every integer value, `0` included,
unchanged). -/
def versionPart (parts : List (Option Int)) (i : Nat) : Int :=
  ((parts.get? i).getD none).getD 0

/-- The `compareVersions` from `MarketServiceClient.ts`: split both strings on
`'.'`, map `Number`, then compare components `0`, `1`, `2` in order with
`partsX[i] || 0`; the first strict inequality decides, otherwise `0`.
The three-iteration `for` loop is unrolled. -/
def compareVersions (a b : String) : Int :=
  let partsA := (splitDot a).map jsNumber
  let partsB := (splitDot b).map jsNumber
  let pA := versionPart partsA
  let pB := versionPart partsB
  if pA 0 < pB 0 then -1
  else if pB 0 < pA 0 then 1
  else if pA 1 < pB 1 then -1
  else if pB 1 < pA 1 then 1
  else if pA 2 < pB 2 then -1
  else if pB 2 < pA 2 then 1
  else 0

/-- Sign comparison of two integers: `-1`, `0` or `1`. -/
def cmpInt (x y : Int) : Int :=
  if x < y then -1 else if y < x then 1 else 0

/-- Whether every component of a version string is numeric (a nonempty
decimal digit string). -/
def numericComponents (s : String) : Bool :=
  (splitDot s).all isDigits

/-- Whether every component of a version string is numeric with a value
in the binary64 safe-integer range (below `2 ^ 53`), where `Number`
conversion is exact. -/
def safeNumericComponents (s : String) : Bool :=
  (splitDot s).all (fun c => isDigits c && decide (digitsToNat c < 2 ^ 53))

/-- The `i`-th component of a version string under the specification's
numeric reading: the decimal value of the component's digits, a missing
component being 0. Meaningful when the components are numeric. -/
def specDigitsPart (s : String) (i : Nat) : Int :=
  match (splitDot s).get? i with
  | none => 0
  | some c => digitsToNat c

/-- The semantic version comparison as the specification words it for
numeric components: compare up to three numeric components pairwise left
to right, missing components treated as 0; the sign of the first unequal
component decides; equal when all three agree. -/
def compareVersionsNumericSpec (a b : String) : Int :=
  if specDigitsPart a 0 ≠ specDigitsPart b 0 then
    cmpInt (specDigitsPart a 0) (specDigitsPart b 0)
  else if specDigitsPart a 1 ≠ specDigitsPart b 1 then
    cmpInt (specDigitsPart a 1) (specDigitsPart b 1)
  else if specDigitsPart a 2 ≠ specDigitsPart b 2 then
    cmpInt (specDigitsPart a 2) (specDigitsPart b 2)
  else 0

-- ============================================
-- Error classification (handleError)
-- ============================================

/-- The `MarketServiceError` from `types.ts`: message, machine code, optional
HTTP status, optional retry-after. -/
structure MarketServiceError where
  message : String
  code : String
  statusCode : Option Nat
  retryAfter : Option Nat
deriving DecidableEq, Repr

/-- The error-code computation of `handleError` for the branch where a
response with a non-2xx status was received: start from
`data.errorCode || 'API_ERROR'`, then the checks for status 401, 403 and
429 each overwrite the code unconditionally. -/
def handleErrorCode (statusCode : Nat) (errorCode : Option String) : String :=
  let code := strOr errorCode "API_ERROR"
  let code := if statusCode = 401 then "INVALID_API_KEY" else code
  let code := if statusCode = 403 then "INSUFFICIENT_PERMISSIONS" else code
  let code := if statusCode = 429 then "RATE_LIMITED" else code
  code

-- ============================================
-- Version-status tracker (parseVersionHeaders)
-- ============================================

/-- The compiled-in SDK version constant (`SDK_VERSION`). -/
def SDK_VERSION : String := "1.1.0"

/-- The four optional response headers the tracker inspects:
`x-sdk-status`, `x-sdk-latest`, `x-sdk-minimum`, `x-sdk-message`. -/
structure VersionHeaders where
  status : Option String
  latest : Option String
  minimum : Option String
  message : Option String
deriving DecidableEq, Repr

/-- The `SDKVersionStatus` from `types.ts`. `checkedAt` is the integer
timestamp taken from the clock when the status was built. -/
structure SDKVersionStatus where
  current : String
  latest : String
  minimum : String
  status : String
  message : Option String
  updateRequired : Bool
  updateAvailable : Bool
  checkedAt : Int
deriving DecidableEq, Repr

/-- The guard `status || latest || minimum` of `parseVersionHeaders`:
at least one of the three status-bearing headers is truthy. -/
def versionHeadersPresent (h : VersionHeaders) : Bool :=
  strTruthy h.status || strTruthy h.latest || strTruthy h.minimum

/-- The `newStatus` object literal of `parseVersionHeaders`, built when
the guard passes. `t` is the clock value for `new Date()`. -/
def mkVersionStatus (h : VersionHeaders) (t : Int) : SDKVersionStatus where
  current := SDK_VERSION
  latest := strOr h.latest SDK_VERSION
  minimum := strOr h.minimum "1.0.0"
  status := strOr h.status "unknown"
  message := strTruthyVal h.message
  updateRequired := h.status = some "unsupported" || h.status = some "deprecated"
  updateAvailable :=
    match strTruthyVal h.latest with
    | some l => decide (compareVersions SDK_VERSION l < 0)
    | none => false
  checkedAt := t

/-- One step of `parseVersionHeaders` on the stored
`this.versionStatus`: returns the new stored value together with whether
the subscriber fan-out fired (`statusChanged`). When no status-bearing
header is truthy, nothing happens. -/
def parseVersionHeaders (stored : Option SDKVersionStatus) (h : VersionHeaders)
    (t : Int) : Option SDKVersionStatus × Bool :=
  if versionHeadersPresent h then
    let newStatus := mkVersionStatus h t
    let statusChanged :=
      match stored with
      | none => true
      | some old => old.status ≠ newStatus.status || old.latest ≠ newStatus.latest
    (some newStatus, statusChanged)
  else (stored, false)

-- ============================================
-- Subscriber notification (versionCallbacks.forEach, onVersionChange)
-- ============================================

/-- A registered version-change subscriber, abstracted to what matters
for the iteration policy: an identity and the set of subscribers its
callback unsubscribes (each unsubscribe closure does
`indexOf(callback)` then `splice(index, 1)`, i.e. removes the first
occurrence). -/
structure Subscriber where
  id : Nat
  unsubscribes : List Nat
deriving DecidableEq, Repr

/-- The `splice`-based removal performed by the unsubscribe closure returned
by `onVersionChange`: drop the first subscriber with the given identity;
if none is found the array is unchanged. -/
def removeFirstSub (arr : List Subscriber) (target : Nat) : List Subscriber :=
  match arr with
  | [] => []
  | cb :: rest => if cb.id = target then rest else cb :: removeFirstSub rest target

/-- The effect of invoking one subscriber's callback on the live
callback array: perform each of its unsubscriptions in order. -/
def invokeSubscriber (arr : List Subscriber) (cb : Subscriber) : List Subscriber :=
  cb.unsubscribes.foldl removeFirstSub arr

/-- The `Array.prototype.forEach` over the live `versionCallbacks` array, as
`this.versionCallbacks.forEach(cb => cb(newStatus))` runs it: the index
range is fixed to the array's length at the start, each index is visited
once, an index no longer backed by an element (because a splice shrank
the array) is skipped, and the element at the index is read from the
current array. Returns the final array and the identities invoked, in
invocation order. `fuel` counts the remaining indices. -/
def notifyAux (k : Nat) (arr : List Subscriber) (invoked : List Nat) :
    Nat → List Subscriber × List Nat
  | 0 => (arr, invoked)
  | fuel + 1 =>
      match arr.get? k with
      | some cb => notifyAux (k + 1) (invokeSubscriber arr cb) (invoked ++ [cb.id]) fuel
      | none => notifyAux (k + 1) arr invoked fuel

/-- The whole notification fan-out over the live callback array. -/
def notifySubscribers (arr : List Subscriber) : List Subscriber × List Nat :=
  notifyAux 0 arr [] arr.length

-- ============================================
-- Envelope unwrapping (getMarkets, getMarketById)
-- ============================================

/-- The fields of the `ApiResponse<T>` envelope (types.ts) that the
unwrapping logic reads: `data` is absent when the wire carried
`null`/`undefined`. -/
structure ApiResponse (α : Type) where
  data : Option α
deriving DecidableEq, Repr

/-- The fields of `Market` (types.ts) the embedding carries; the client
treats markets as opaque payloads. -/
structure Market where
  id : String
  name : String
  active : Bool
deriving DecidableEq, Repr

/-- The unwrapping step of `getMarkets`:
`response.data.data || []` (a present list, even empty, is truthy). -/
def getMarketsResult (env : ApiResponse (List Market)) : List Market :=
  env.data.getD []

/-- The unwrapping step of `getMarketById`: a missing payload raises
`MarketServiceError('Market not found', 'NOT_FOUND', 404)`, otherwise
the market is returned. -/
def getMarketByIdResult (env : ApiResponse Market) :
    Except MarketServiceError Market :=
  match env.data with
  | none => .error ⟨"Market not found", "NOT_FOUND", some 404, none⟩
  | some m => .ok m

-- ============================================
-- Cost adders (types.ts, calculateCostAdders, getActiveCostAdders)
-- ============================================

/-- The `CostAdder.adder_type` from `types.ts`. -/
inductive AdderType where
  | percentage
  | fixed
  | per_square
deriving DecidableEq, Repr

/-- Quote type accepted by `getActiveCostAdders`. -/
inductive QuoteType where
  | retail
  | lom
deriving DecidableEq, Repr

/-- The fields of `CostAdder` (types.ts) that the client-side helpers
read. Dates are integer timestamps. -/
structure CostAdder where
  adder_name : String
  adder_type : AdderType
  cost_value : Rat
  applies_to_retail : Bool
  applies_to_lom : Bool
  county_fips : Option String
  display_name : Option String
  effective_date : Option Int
  expiration_date : Option Int
  active : Bool
deriving DecidableEq, Repr

/-- The options object of `getActiveCostAdders`. -/
structure ActiveAdderOptions where
  quoteType : Option QuoteType
  countyFips : Option String
deriving DecidableEq, Repr

/-- The filter predicate of `getActiveCostAdders`, one adder at a time.
`now` is the value of `new Date()` at evaluation time, passed explicitly.
The county check follows the source's truthiness guards: it only excludes
when both the option and the adder's county are truthy strings and they
differ. -/
def adderPasses (opts : ActiveAdderOptions) (now : Int) (adder : CostAdder) : Bool :=
  if adder.active = false then false
  else if opts.quoteType = some QuoteType.retail && adder.applies_to_retail = false then false
  else if opts.quoteType = some QuoteType.lom && adder.applies_to_lom = false then false
  else if strTruthy opts.countyFips && strTruthy adder.county_fips
          && adder.county_fips ≠ opts.countyFips then false
  else if (match adder.effective_date with
           | some d => decide (now < d)
           | none => false) then false
  else if (match adder.expiration_date with
           | some d => decide (d < now)
           | none => false) then false
  else true

/-- The client-side filtering step of `getActiveCostAdders`, applied to an
already-fetched adder list. -/
def getActiveCostAdders (costAdders : List CostAdder) (opts : ActiveAdderOptions)
    (now : Int) : List CostAdder :=
  costAdders.filter (adderPasses opts now)

/-- One breakdown entry of `calculateCostAdders`. -/
structure BreakdownEntry where
  name : String
  type : AdderType
  cost : Rat
deriving DecidableEq, Repr

/-- The per-adder cost of the `switch` in `calculateCostAdders`. -/
def adderCost (adder : CostAdder) (basePrice roofSquares : Rat) : Rat :=
  match adder.adder_type with
  | .percentage => basePrice * (adder.cost_value / 100)
  | .fixed => adder.cost_value
  | .per_square => adder.cost_value * roofSquares

/-- The `calculateCostAdders` from `MarketServiceClient.ts`: fold over the
adder list accumulating the running total and the breakdown, in input
order. Returns `(totalAdderCost, breakdown)`. -/
def calculateCostAdders (costAdders : List CostAdder) (basePrice roofSquares : Rat) :
    Rat × List BreakdownEntry :=
  costAdders.foldl
    (fun acc adder =>
      let cost := adderCost adder basePrice roofSquares
      (acc.1 + cost,
       acc.2 ++ [⟨strOr adder.display_name adder.adder_name, adder.adder_type, cost⟩]))
    (0, [])

/-- A sample cost adder whose expiration date has passed by time 20 but
not by time 5; used to exhibit the clock dependence of the active-adder
filter. -/
def expiringAdder : CostAdder where
  adder_name := "storm surcharge"
  adder_type := AdderType.fixed
  cost_value := 250
  applies_to_retail := true
  applies_to_lom := true
  county_fips := none
  display_name := none
  effective_date := none
  expiration_date := some 10
  active := true

/-- A sample cost adder carrying no effective/expiration dates. -/
def undatedAdder : CostAdder where
  adder_name := "disposal"
  adder_type := AdderType.fixed
  cost_value := 75
  applies_to_retail := true
  applies_to_lom := true
  county_fips := none
  display_name := none
  effective_date := none
  expiration_date := none
  active := true

-- ============================================
-- Helper lemmas
-- ============================================

/-- Rounding to 53 significant bits leaves safe-range integers
unchanged. -/
lemma roundNearest53_of_lt {n : Nat} (h : n < 2 ^ 53) :
    roundNearest53 n = n := by
  unfold roundNearest53
  rw [if_pos h]

/-- The `jsNumber` on a nonempty decimal digit string is its decimal
value rounded to binary64 precision. -/
lemma jsNumber_isDigits {l : List Char} (hd : isDigits l = true) :
    jsNumber l = some (roundNearest53 (digitsToNat l) : Int) := by
  have hne : l ≠ [] := by
    intro hl
    subst hl
    simp [isDigits] at hd
  unfold jsNumber
  rw [if_neg hne, if_pos hd]

/-- When every component of the string is numeric and in the safe-integer
range, `partsX[i] || 0` equals the exact numeric specification part. -/
lemma versionPart_eq_specDigitsPart {s : String}
    (hs : safeNumericComponents s = true) (i : Nat) :
    versionPart ((splitDot s).map jsNumber) i = specDigitsPart s i := by
  unfold versionPart specDigitsPart
  rw [List.get?_map]
  rcases hc : (splitDot s).get? i with _ | c
  · simp
  · have hmem : c ∈ splitDot s := List.get?_mem hc
    have hall := List.all_eq_true.mp hs c hmem
    obtain ⟨hd, hlt⟩ : isDigits c = true ∧ digitsToNat c < 2 ^ 53 := by
      simpa using hall
    simp [jsNumber_isDigits hd, roundNearest53_of_lt hlt]

/-- Both if-cascades used for three-component comparison agree: the
source's strict-inequality cascade equals the first-unequal-component
sign description. -/
lemma compareTreeEq (x0 x1 x2 y0 y1 y2 : Int) :
    (if x0 < y0 then -1 else if y0 < x0 then 1
     else if x1 < y1 then -1 else if y1 < x1 then 1
     else if x2 < y2 then -1 else if y2 < x2 then 1 else 0 : Int)
    = (if x0 ≠ y0 then cmpInt x0 y0 else if x1 ≠ y1 then cmpInt x1 y1
       else if x2 ≠ y2 then cmpInt x2 y2 else 0) := by
  simp only [cmpInt]
  split_ifs <;> omega

/-- The `x || d` falls back to the default exactly when `x` has no truthy
value. -/
lemma strOr_truthyVal_none {x : Option String} {d : String}
    (hx : strTruthyVal x = none) : strOr x d = d := by
  rcases x with _ | s
  · rfl
  · rcases eq_or_ne s "" with hs | hs
    · simp [strOr, hs]
    · simp [strTruthyVal, hs] at hx

/-- The `x || d` keeps the truthy value of `x` when there is one. -/
lemma strOr_truthyVal_some {x : Option String} {d v : String}
    (hx : strTruthyVal x = some v) : strOr x d = v := by
  rcases x with _ | s
  · simp [strTruthyVal] at hx
  · rcases eq_or_ne s "" with hs | hs
    · simp [strTruthyVal, hs] at hx
    · simp only [strTruthyVal, if_neg hs, Option.some.injEq] at hx
      subst hx
      simp [strOr, hs]

/-- Unfolding of the `calculateCostAdders` fold with a generalized
accumulator: the total is the accumulator plus the sum of the per-adder
costs, and the breakdown is the accumulator's followed by one entry per
adder in input order. -/
lemma calculateCostAdders_foldl (l : List CostAdder) (b r : Rat)
    (acc : Rat × List BreakdownEntry) :
    l.foldl
      (fun acc adder =>
        let cost := adderCost adder b r
        (acc.1 + cost,
         acc.2 ++ [⟨strOr adder.display_name adder.adder_name, adder.adder_type, cost⟩]))
      acc
    = (acc.1 + (l.map (fun a => adderCost a b r)).sum,
       acc.2 ++ l.map
         (fun a => ⟨strOr a.display_name a.adder_name, a.adder_type, adderCost a b r⟩)) := by
  induction l generalizing acc with
  | nil => simp
  | cons a l ih => simp [ih, add_assoc]

-- ============================================
-- Claim theorems
-- ============================================

/-- C1: failing input for the documented base-URL priority. With only an
API key carrying the live marker (no explicit URL, no environment), the
code resolves the base URL to the development default while the
constructor infers environment production; the spec-side resolution
(`specBaseURL`, clause (c): use the key-inferred environment's default)
gives the production URL. -/
theorem c1_base_url_priority_failing_input :
    resolveBaseURL ⟨none, none, "mk_live_abc"⟩ = "http://localhost:3002" ∧
    resolvedEnvironment ⟨none, none, "mk_live_abc"⟩ = ServiceEnvironment.production ∧
    specBaseURL ⟨none, none, "mk_live_abc"⟩ = SERVICE_URLS ServiceEnvironment.production ∧
    resolveBaseURL ⟨none, none, "mk_live_abc"⟩ ≠ specBaseURL ⟨none, none, "mk_live_abc"⟩ := by
  decide

/-- C2 counterexample: a 401 response whose envelope carries the machine
code `EXPIRED_JWT` yields a `ServiceError` code `INVALID_API_KEY`, not the
envelope's code — the status-derived codes overwrite the envelope code,
contrary to the claimed priority. -/
theorem c2_envelope_code_overridden_counterexample :
    handleErrorCode 401 (some "EXPIRED_JWT") = "INVALID_API_KEY" ∧
    handleErrorCode 401 (some "EXPIRED_JWT") ≠ "EXPIRED_JWT" := by
  decide

/-- C2 (amended): for HTTP statuses 401, 403 and 429 the error code is
always the status-derived one (`INVALID_API_KEY`,
`INSUFFICIENT_PERMISSIONS`, `RATE_LIMITED`), regardless of the envelope;
for every other status the envelope's machine code is used when present
(and nonempty), else the generic `API_ERROR`. -/
theorem c2_error_code_amended (s : Nat) (ec : Option String) :
    handleErrorCode 401 ec = "INVALID_API_KEY" ∧
    handleErrorCode 403 ec = "INSUFFICIENT_PERMISSIONS" ∧
    handleErrorCode 429 ec = "RATE_LIMITED" ∧
    (s ≠ 401 → s ≠ 403 → s ≠ 429 → handleErrorCode s ec = strOr ec "API_ERROR") := by
  refine ⟨by simp [handleErrorCode], by simp [handleErrorCode], by simp [handleErrorCode], ?_⟩
  intro h1 h2 h3
  simp [handleErrorCode, h1, h2, h3]

/-- Witness for C2 (amended): a 404 response with envelope code
`NOT_FOUND` keeps the envelope code. -/
theorem c2_error_code_amended_witness :
    handleErrorCode 404 (some "NOT_FOUND") = "NOT_FOUND" := by
  have h := (c2_error_code_amended 404 (some "NOT_FOUND")).2.2.2
    (by decide) (by decide) (by decide)
  simpa [strOr] using h

/-- C4: failing input for snapshot-stable notification. Two subscribers
are registered; during the notification the first unsubscribes itself.
Under the source's `forEach` over the live array with `splice` removal,
the second subscriber shifts into the already-visited index and is never
invoked, although it was registered when the notification began (and is
still registered afterwards). -/
theorem c4_in_callback_unsubscribe_skips_subscriber :
    notifySubscribers [⟨0, [0]⟩, ⟨1, []⟩] = ([⟨1, []⟩], [0]) ∧
    1 ∉ (notifySubscribers [⟨0, [0]⟩, ⟨1, []⟩]).2 := by
  decide

/-- C7: a success envelope with an absent/null payload makes the
single-entity fetch (`getMarketById`) fail with the not-found error
(`NOT_FOUND`, HTTP 404) rather than return a value, and makes the list
fetch (`getMarkets`) return the empty list; present payloads are returned
as-is. -/
theorem c7_null_data_unwrapping (envS : ApiResponse Market)
    (envL : ApiResponse (List Market)) :
    (envS.data = none →
      getMarketByIdResult envS
        = Except.error ⟨"Market not found", "NOT_FOUND", some 404, none⟩) ∧
    (∀ m, envS.data = some m → getMarketByIdResult envS = Except.ok m) ∧
    (envL.data = none → getMarketsResult envL = []) ∧
    (∀ l, envL.data = some l → getMarketsResult envL = l) := by
  refine ⟨?_, ?_, ?_, ?_⟩
  · intro hd; simp [getMarketByIdResult, hd]
  · intro m hd; simp [getMarketByIdResult, hd]
  · intro hd; simp [getMarketsResult, hd]
  · intro l hd; simp [getMarketsResult, hd]

/-- Witness for C7 at empty envelopes. -/
theorem c7_null_data_unwrapping_witness :
    getMarketByIdResult (⟨none⟩ : ApiResponse Market)
      = Except.error ⟨"Market not found", "NOT_FOUND", some 404, none⟩ ∧
    getMarketsResult (⟨none⟩ : ApiResponse (List Market)) = [] :=
  ⟨(c7_null_data_unwrapping ⟨none⟩ ⟨none⟩).1 rfl,
   (c7_null_data_unwrapping ⟨none⟩ ⟨none⟩).2.2.1 rfl⟩

/-- C5: if none of the three status-bearing headers is truthy, nothing is
stored and no notification fires; otherwise the stored value becomes the
newly built status, whose `current` is the compiled-in SDK version,
whose `latest` defaults to `current` when the latest header is absent
(empty counts as absent, per JavaScript truthiness) and is the header's
value otherwise, whose `minimum` defaults to `"1.0.0"`, whose `status`
defaults to `"unknown"`, whose `updateRequired` holds iff the status
field is deprecated or unsupported, and whose `updateAvailable` holds iff
a latest header was present and the compiled-in version compares strictly
below it. -/
theorem c5_version_status_construction (st : Option SDKVersionStatus)
    (h : VersionHeaders) (t : Int) :
    (versionHeadersPresent h = false → parseVersionHeaders st h t = (st, false)) ∧
    (versionHeadersPresent h = true →
      (parseVersionHeaders st h t).1 = some (mkVersionStatus h t)) ∧
    (mkVersionStatus h t).current = SDK_VERSION ∧
    (strTruthyVal h.latest = none →
      (mkVersionStatus h t).latest = (mkVersionStatus h t).current) ∧
    (∀ v, strTruthyVal h.latest = some v → (mkVersionStatus h t).latest = v) ∧
    (strTruthyVal h.minimum = none → (mkVersionStatus h t).minimum = "1.0.0") ∧
    (∀ v, strTruthyVal h.minimum = some v → (mkVersionStatus h t).minimum = v) ∧
    (strTruthyVal h.status = none → (mkVersionStatus h t).status = "unknown") ∧
    (∀ v, strTruthyVal h.status = some v → (mkVersionStatus h t).status = v) ∧
    ((mkVersionStatus h t).updateRequired = true ↔
      ((mkVersionStatus h t).status = "deprecated" ∨
       (mkVersionStatus h t).status = "unsupported")) ∧
    ((mkVersionStatus h t).updateAvailable = true ↔
      ∃ v, strTruthyVal h.latest = some v ∧ compareVersions SDK_VERSION v < 0) := by
  refine ⟨?_, ?_, rfl, ?_, ?_, ?_, ?_, ?_, ?_, ?_, ?_⟩
  · intro hp; simp [parseVersionHeaders, hp]
  · intro hp; simp [parseVersionHeaders, hp]
  · intro hl
    show strOr h.latest SDK_VERSION = SDK_VERSION
    exact strOr_truthyVal_none hl
  · intro v hv
    show strOr h.latest SDK_VERSION = v
    exact strOr_truthyVal_some hv
  · intro hm
    show strOr h.minimum "1.0.0" = "1.0.0"
    exact strOr_truthyVal_none hm
  · intro v hv
    show strOr h.minimum "1.0.0" = v
    exact strOr_truthyVal_some hv
  · intro hs
    show strOr h.status "unknown" = "unknown"
    exact strOr_truthyVal_none hs
  · intro v hv
    show strOr h.status "unknown" = v
    exact strOr_truthyVal_some hv
  · rcases hh : h.status with _ | s
    · simp [mkVersionStatus, strOr, hh]
    · rcases eq_or_ne s "" with hs | hs
      · simp [mkVersionStatus, strOr, hh, hs]
      · simp only [mkVersionStatus, strOr, hh, if_neg hs, Option.some.injEq,
          Bool.or_eq_true, decide_eq_true_eq]
        tauto
  · rcases hv : strTruthyVal h.latest with _ | v
    · simp [mkVersionStatus, hv]
    · simp [mkVersionStatus, hv]

/-- Witness for C5: a response carrying only a deprecated status header
and a newer latest header stores the freshly built status, which flags an
update as required. -/
theorem c5_version_status_construction_witness :
    (parseVersionHeaders none ⟨some "deprecated", some "9.9.9", none, none⟩ 7).1
      = some (mkVersionStatus ⟨some "deprecated", some "9.9.9", none, none⟩ 7) ∧
    (mkVersionStatus ⟨some "deprecated", some "9.9.9", none, none⟩ 7).updateRequired
      = true := by
  obtain ⟨_, h2, _, _, _, _, _, _, h9, h10, _⟩ :=
    c5_version_status_construction none ⟨some "deprecated", some "9.9.9", none, none⟩ 7
  refine ⟨h2 (by decide), h10.2 (Or.inl (h9 "deprecated" (by decide)))⟩

/-- C3: for a response whose status-bearing headers are truthy, the
stored status is always overwritten with the newly computed one; the
fan-out fires when there was no previous status; with a previous status
it fires exactly when the `status` or `latest` field differs; processing
the same headers again immediately after never fires; and a following
response with truthy headers and a different `status` field fires
again. -/
theorem c3_transition_detection (st : Option SDKVersionStatus)
    (h h2 : VersionHeaders) (t1 t2 : Int)
    (hp : versionHeadersPresent h = true) :
    (parseVersionHeaders st h t1).1 = some (mkVersionStatus h t1) ∧
    (st = none → (parseVersionHeaders st h t1).2 = true) ∧
    (∀ old, st = some old →
      ((parseVersionHeaders st h t1).2 = true ↔
        (old.status ≠ (mkVersionStatus h t1).status ∨
         old.latest ≠ (mkVersionStatus h t1).latest))) ∧
    (parseVersionHeaders (parseVersionHeaders st h t1).1 h t2).2 = false ∧
    (versionHeadersPresent h2 = true →
      (mkVersionStatus h2 t2).status ≠ (mkVersionStatus h t1).status →
      (parseVersionHeaders (parseVersionHeaders st h t1).1 h2 t2).2 = true) := by
  have hfst : (parseVersionHeaders st h t1).1 = some (mkVersionStatus h t1) := by
    simp [parseVersionHeaders, hp]
  refine ⟨hfst, ?_, ?_, ?_, ?_⟩
  · intro hst; simp [parseVersionHeaders, hp, hst]
  · intro old hst; simp [parseVersionHeaders, hp, hst]
  · rw [hfst]
    have hstat : (mkVersionStatus h t1).status = (mkVersionStatus h t2).status := rfl
    have hlat : (mkVersionStatus h t1).latest = (mkVersionStatus h t2).latest := rfl
    simp [parseVersionHeaders, hp, hstat, hlat]
  · intro hp2 hne
    rw [hfst]
    simp only [parseVersionHeaders, hp2, if_true, Bool.or_eq_true, decide_eq_true_eq]
    exact Or.inl (Ne.symm hne)

/-- Witness for C3: from an empty stored status, a first response with an
outdated-status header notifies, an identical second response does not,
and a third response whose status header changed to deprecated notifies
again; the stored status is overwritten each time. -/
theorem c3_transition_detection_witness :
    (parseVersionHeaders none ⟨some "outdated", some "2.0.0", none, none⟩ 1).1
      = some (mkVersionStatus ⟨some "outdated", some "2.0.0", none, none⟩ 1) ∧
    (parseVersionHeaders none ⟨some "outdated", some "2.0.0", none, none⟩ 1).2 = true ∧
    (parseVersionHeaders
      (parseVersionHeaders none ⟨some "outdated", some "2.0.0", none, none⟩ 1).1
      ⟨some "outdated", some "2.0.0", none, none⟩ 2).2 = false ∧
    (parseVersionHeaders
      (parseVersionHeaders none ⟨some "outdated", some "2.0.0", none, none⟩ 1).1
      ⟨some "deprecated", some "2.0.0", none, none⟩ 2).2 = true := by
  obtain ⟨h1, h2, _, h4, h5⟩ :=
    c3_transition_detection none ⟨some "outdated", some "2.0.0", none, none⟩
      ⟨some "deprecated", some "2.0.0", none, none⟩ 1 2 (by decide)
  exact ⟨h1, h2 rfl, h4, h5 (by decide) (by decide)⟩

/-- C8 counterexample: the active-cost-adder filter depends on the
ambient clock. With a fixed adder list and fixed filter options, the
result differs between two evaluation times straddling an adder's
expiration date, refuting "no dependence on any ambient state such as the
current clock". -/
theorem c8_filter_clock_dependence_counterexample :
    getActiveCostAdders [expiringAdder] ⟨none, none⟩ 5 = [expiringAdder] ∧
    getActiveCostAdders [expiringAdder] ⟨none, none⟩ 20 = [] ∧
    getActiveCostAdders [expiringAdder] ⟨none, none⟩ 5
      ≠ getActiveCostAdders [expiringAdder] ⟨none, none⟩ 20 := by
  decide

/-- C8 (amended): `calculateCostAdders` is pure in its inputs — its total
is the sum of the per-adder costs and its breakdown is one entry per
adder in input order, both functions of the adder list, base price and
quantity alone; the active-adder filter is deterministic given its inputs
and the current clock, and is clock-independent whenever no adder in the
list carries an effective or expiration date (the date-window check is
the only place the clock enters). -/
theorem c8_aggregation_purity_amended (adders : List CostAdder)
    (opts : ActiveAdderOptions) (b r : Rat) (t1 t2 : Int)
    (hdates : ∀ a ∈ adders, a.effective_date = none ∧ a.expiration_date = none) :
    getActiveCostAdders adders opts t1 = getActiveCostAdders adders opts t2 ∧
    (calculateCostAdders adders b r).1 = (adders.map (fun a => adderCost a b r)).sum ∧
    (calculateCostAdders adders b r).2
      = adders.map
          (fun a => ⟨strOr a.display_name a.adder_name, a.adder_type, adderCost a b r⟩) := by
  refine ⟨?_, ?_, ?_⟩
  · apply List.filter_congr
    intro a ha
    obtain ⟨h1, h2⟩ := hdates a ha
    simp [adderPasses, h1, h2]
  · rw [calculateCostAdders, calculateCostAdders_foldl]; simp
  · rw [calculateCostAdders, calculateCostAdders_foldl]; simp

/-- Witness for C8 (amended) on a one-element undated adder list. -/
theorem c8_aggregation_purity_amended_witness :
    getActiveCostAdders [undatedAdder] ⟨none, none⟩ 0
      = getActiveCostAdders [undatedAdder] ⟨none, none⟩ 100 ∧
    (calculateCostAdders [undatedAdder] 1000 3).1
      = ([undatedAdder].map (fun a => adderCost a 1000 3)).sum := by
  have h := c8_aggregation_purity_amended [undatedAdder] ⟨none, none⟩ 1000 3 0 100
    (by decide)
  exact ⟨h.1, h.2.1⟩

/-- C9: on a fixed-type adder of 500, a percentage-type adder of 10 at
base price 10000, and a per-square adder of 20 with quantity 5, the total
is 1600 and the breakdown has exactly three entries in input order with
the computed costs. -/
theorem c9_cost_adder_aggregation :
    calculateCostAdders
      [ { adder_name := "permit fee", adder_type := AdderType.fixed, cost_value := 500,
          applies_to_retail := true, applies_to_lom := true, county_fips := none,
          display_name := none, effective_date := none, expiration_date := none,
          active := true },
        { adder_name := "overhead", adder_type := AdderType.percentage, cost_value := 10,
          applies_to_retail := true, applies_to_lom := true, county_fips := none,
          display_name := none, effective_date := none, expiration_date := none,
          active := true },
        { adder_name := "steep pitch", adder_type := AdderType.per_square, cost_value := 20,
          applies_to_retail := true, applies_to_lom := true, county_fips := none,
          display_name := none, effective_date := none, expiration_date := none,
          active := true } ]
      10000 5
    = (1600,
       [ ⟨"permit fee", AdderType.fixed, 500⟩,
         ⟨"overhead", AdderType.percentage, 1000⟩,
         ⟨"steep pitch", AdderType.per_square, 100⟩ ]) := by
  simp [calculateCostAdders, adderCost, strOr]
  norm_num

/-- C6 counterexample: the comparison does not return the sign of the
first unequal numeric component on all numeric inputs. The first
components `9007199254740993` (`2 ^ 53 + 1`) and `9007199254740992`
(`2 ^ 53`) are distinct numerals, so the claimed result is the sign `1`;
but `Number` rounds both to the same binary64 value `2 ^ 53`, so the
code returns `0`. -/
theorem c6_float64_rounding_counterexample :
    numericComponents "9007199254740993.0.0" = true ∧
    numericComponents "9007199254740992.0.0" = true ∧
    compareVersionsNumericSpec "9007199254740993.0.0" "9007199254740992.0.0" = 1 ∧
    compareVersions "9007199254740993.0.0" "9007199254740992.0.0" = 0 ∧
    compareVersions "9007199254740993.0.0" "9007199254740992.0.0"
      ≠ compareVersionsNumericSpec "9007199254740993.0.0" "9007199254740992.0.0" := by
  decide

/-- C6 (amended): on version strings whose components are all numeric
with values in the binary64 safe-integer range (below `2 ^ 53`, where
`Number` conversion is exact), the source's comparison equals the
specification's: split on `'.'`, compare up to three components pairwise
left to right with missing components as 0, the sign of the first
unequal component decides, equal otherwise; the four documented
input/output pairs hold. -/
theorem c6_compare_versions_safe_numeric (a b : String)
    (ha : safeNumericComponents a = true) (hb : safeNumericComponents b = true) :
    compareVersions a b = compareVersionsNumericSpec a b ∧
    compareVersions "1.2.0" "1.10.0" < 0 ∧
    compareVersions "1.0.0" "1.0.0" = 0 ∧
    0 < compareVersions "2.0.0" "1.9.9" ∧
    compareVersions "1.2" "1.2.0" = 0 := by
  refine ⟨?_, by decide, by decide, by decide, by decide⟩
  unfold compareVersions compareVersionsNumericSpec
  simp only [versionPart_eq_specDigitsPart ha, versionPart_eq_specDigitsPart hb]
  exact compareTreeEq _ _ _ _ _ _

/-- Witness for C6 (amended) on two concrete safe-range numeric version
strings of different lengths. -/
theorem c6_compare_versions_safe_numeric_witness :
    compareVersions "1.0.0" "2.3" = compareVersionsNumericSpec "1.0.0" "2.3" :=
  (c6_compare_versions_safe_numeric "1.0.0" "2.3" (by decide) (by decide)).1

end DripEdge
